import Mathlib

/-!
Verification development for the Deductly adaptive estimation-and-planning
engine.  The definitions below are shallow embeddings of the Python sources:

* `backend/personalization/adaptive_helpers.py` (skill-index mapping,
  mastery-vector reads, phase allocation, feature engineering),
* `backend/personalization/adaptive_planner.py` (weekly module selection),
* `backend/personalization/bandit.py` (Bayesian linear bandit),
* `backend/insights/elo_system.py` (per-skill Elo ledger),
* `backend/insights/irt_implementation.py` (online Rasch ability update),
* `backend/insights/logic.py` (skill taxonomy, mastery-vector reads).

Database and file I/O performed by the sources is modelled by passing the
stored value (or the looked-up record) explicitly as an argument; NumPy float
arithmetic is modelled over `ℚ` where only exact field arithmetic occurs and
over `ℝ` where transcendental functions (`10**x`, `sqrt`, `sigmoid`) occur.
Python `while` loops are modelled with an explicit fuel parameter, `none`
standing for "still running after `fuel` iterations".
-/

namespace Deductly

/-! ## Skill-index mapping (`adaptive_helpers.py`, `skill_id_to_index` /
`index_to_skill_id`) -/

/-- Decimal digit of value `n` (used for Python `f"{n:02d}"` formatting). -/
def digitToChar : ℕ → Char
  | 0 => '0'
  | 1 => '1'
  | 2 => '2'
  | 3 => '3'
  | 4 => '4'
  | 5 => '5'
  | 6 => '6'
  | 7 => '7'
  | 8 => '8'
  | _ => '9'

/-- Python `f"{n:02d}"` for `n < 100`: two-digit zero-padded decimal. -/
def pad2 (n : ℕ) : String :=
  if n < 10 then String.mk ['0', digitToChar n]
  else String.mk [digitToChar (n / 10), digitToChar (n % 10)]

/-- Value of a decimal digit character, `none` on a non-digit. -/
def charToDigit (c : Char) : Option ℕ :=
  if c = '0' then some 0
  else if c = '1' then some 1
  else if c = '2' then some 2
  else if c = '3' then some 3
  else if c = '4' then some 4
  else if c = '5' then some 5
  else if c = '6' then some 6
  else if c = '7' then some 7
  else if c = '8' then some 8
  else if c = '9' then some 9
  else none

/-- Accumulating decimal parser over a character list. -/
def parseNatAux : List Char → ℕ → Option ℕ
  | [], acc => some acc
  | c :: cs, acc =>
    match charToDigit c with
    | some d => parseNatAux cs (acc * 10 + d)
    | none => none

/-- Python `int(...)` restricted to the unsigned decimal numerals that occur
in skill identifiers; `none` models the `ValueError` on anything else. -/
def parseNat (cs : List Char) : Option ℕ :=
  if cs = [] then none else parseNatAux cs 0

/-- Python `str.split('-')` on a character list (empty components kept). -/
def splitOnDash : List Char → List (List Char)
  | [] => [[]]
  | c :: cs =>
    if c = '-' then [] :: splitOnDash cs
    else
      match splitOnDash cs with
      | [] => [[c]]
      | t :: ts => (c :: t) :: ts

/-- `skill_id_to_index` from `adaptive_helpers.py`: `startswith('LR')` /
`startswith('RC')` dispatch, then `int(skill_id.split('-')[1])`.  `none`
models the `ValueError` / parse-failure branches. -/
def skill_id_to_index (skill_id : String) : Option ℤ :=
  let cs := skill_id.data
  if cs.take 2 = ['L', 'R'] then
    (parseNat ((splitOnDash cs).getD 1 [])).map (fun num => (num : ℤ) - 1)
  else if cs.take 2 = ['R', 'C'] then
    (parseNat ((splitOnDash cs).getD 1 [])).map (fun num => 18 + (num : ℤ) - 1)
  else
    none

/-- `index_to_skill_id` from `adaptive_helpers.py`.  `none` models the
`ValueError` branch for an index outside `[0, 34]`. -/
def index_to_skill_id (index : ℤ) : Option String :=
  if 0 ≤ index ∧ index ≤ 17 then some ("LR-" ++ pad2 (index + 1).toNat)
  else if 18 ≤ index ∧ index ≤ 34 then some ("RC-" ++ pad2 (index - 17).toNat)
  else none

/-- The 35 planner skill identifiers `LR-01 … LR-18, RC-01 … RC-17`. -/
def plannerSkillIds : List String :=
  (List.range 18).map (fun k => "LR-" ++ pad2 (k + 1)) ++
    (List.range 17).map (fun k => "RC-" ++ pad2 (k + 1))

/-! ## Skill taxonomy and mastery-vector reads -/

/-- `skill_taxonomy` from `insights/logic.py` (34 entries of
`(skill_id, name)`). -/
def skill_taxonomy : List (String × String) :=
  [("S_01", "Main Conclusion ID"),
   ("S_02", "Role Identification"),
   ("S_03", "Disagreement Isolation"),
   ("S_04", "Intermediate Conclusion Recognition"),
   ("FL_01", "Conditional Translation"),
   ("FL_02", "Contrapositive Operations"),
   ("FL_03", "Chain/Transitive Deduction"),
   ("FL_04", "Quantifier Scope"),
   ("FL_05", "Quantifier Intersection"),
   ("FL_06", "Modal Precision"),
   ("FL_07", "Conditional Fallacies"),
   ("RH_01", "Causality vs. Correlation"),
   ("RH_02", "Alternative Explanations"),
   ("RH_03", "Sufficiency Gaps"),
   ("RH_04", "Necessity Gaps"),
   ("RH_05", "Sampling Validity"),
   ("RH_06", "Ad Hominem / Source Attacks"),
   ("RH_07", "Evidential Weight Assessment"),
   ("RH_08", "Scope Shift Recognition"),
   ("ABS_01", "Structural Matching"),
   ("ABS_02", "Flaw Matching"),
   ("ABS_03", "Principle Application"),
   ("RC_01", "Global Thesis ID"),
   ("RC_02", "Authorial Purpose"),
   ("RC_03", "Passage Architecture"),
   ("RC_04", "Detail Retrieval"),
   ("RC_05", "Logical Function"),
   ("RC_06", "Viewpoint Tracking"),
   ("RC_07", "Inference"),
   ("RC_08", "Tone/Attitude"),
   ("RC_09", "Analogy/Application"),
   ("RC_10", "New Info Impact"),
   ("RC_11", "Comparative Relationship"),
   ("RC_12", "Cross-Reference / Agreement")]

/-- `get_current_mastery_vector` from `insights/logic.py`.  The database read
is modelled by the `stored` argument: `none` stands for a missing (or
NULL/empty) `mastery_vector` row, `some v` for the parsed stored vector. -/
def get_current_mastery_vector (stored : Option (List ℚ)) : List ℚ :=
  match stored with
  | some v => v
  | none => List.replicate skill_taxonomy.length 0

/-- `get_mastery_vector` from `personalization/adaptive_helpers.py` (both the
current and the historical branch fall back to the same default).  The
database read is modelled by the `stored` argument. -/
def get_mastery_vector (stored : Option (List ℚ)) : List ℚ :=
  match stored with
  | some v => v
  | none => List.replicate 35 (3 / 10)

/-! ## Phase allocation (`adaptive_helpers.py`, `allocate_phases`) -/

/-- `np.mean` of a rational vector. -/
def npMean (v : List ℚ) : ℚ := v.sum / v.length

/-- `np.var` (population variance) of a rational vector. -/
def npVar (v : List ℚ) : ℚ :=
  ((v.map (fun x => (x - npMean v) ^ 2)).sum) / v.length

/-- The base allocation table of `allocate_phases` (keyed on `total_weeks`;
`Int.fdiv` is Python floor division `//`). -/
def allocBase (total_weeks : ℤ) : ℤ × ℤ × ℤ :=
  if total_weeks = 10 then (3, 4, 3)
  else if total_weeks = 12 then (4, 5, 3)
  else if total_weeks = 8 then (2, 4, 2)
  else
    let N1 := max 2 (Int.fdiv total_weeks 4)
    let N2 := max 3 (Int.fdiv total_weeks 2)
    let N3 := max 2 (total_weeks - N1 - N2)
    (N1, N2, N3)

/-- The mastery-average and variance adjustments of `allocate_phases`. -/
def allocAdjust (total_weeks : ℤ) (avg_mastery skill_variance : ℚ)
    (base : ℤ × ℤ × ℤ) : ℤ × ℤ × ℤ :=
  let N1 := base.1
  let N2 := base.2.1
  let N3 := base.2.2
  let p :=
    if avg_mastery < 1 / 4 then (min (N1 + 1) (total_weeks - 4), max 2 (N3 - 1))
    else if avg_mastery > 1 / 2 then
      (max 2 (N1 - 1), min (N3 + 1) (total_weeks - 4))
    else (N1, N3)
  let N1 := p.1
  let N3 := p.2
  let q :=
    if skill_variance > 1 / 20 then
      (min (N2 + 1) (total_weeks - N1 - 2), max 2 (N3 - 1))
    else (N2, N3)
  (N1, q.1, q.2)

/-- The final `while N1 + N2 + N3 != total_weeks` fix-up loop of
`allocate_phases`, with fuel; `none` means the loop is still running after
`fuel` iterations. -/
def allocLoop (total_weeks : ℤ) : ℕ → ℤ × ℤ × ℤ → Option (ℤ × ℤ × ℤ)
  | 0, s => if s.1 + s.2.1 + s.2.2 = total_weeks then some s else none
  | fuel + 1, s =>
    if s.1 + s.2.1 + s.2.2 = total_weeks then some s
    else if s.1 + s.2.1 + s.2.2 < total_weeks then
      allocLoop total_weeks fuel (s.1, s.2.1 + 1, s.2.2)
    else
      allocLoop total_weeks fuel (s.1, max 3 (s.2.1 - 1), s.2.2)

/-- `allocate_phases` from `adaptive_helpers.py`, fuelled. -/
def allocate_phases (fuel : ℕ) (total_weeks : ℤ) (mastery_vector : List ℚ) :
    Option (ℤ × ℤ × ℤ) :=
  allocLoop total_weeks fuel
    (allocAdjust total_weeks (npMean mastery_vector) (npVar mastery_vector)
      (allocBase total_weeks))

/-! ## Per-skill Elo ledger (`insights/elo_system.py`) -/

/-- Module-level parameter `DEFAULT_RATING`. -/
def DEFAULT_RATING : ℝ := 1500

/-- Module-level parameter `BASE_K_USER`. -/
def BASE_K_USER : ℝ := 40

/-- Module-level parameter `BASE_K_QUESTION`. -/
def BASE_K_QUESTION : ℝ := 20

/-- Module-level parameter `ELO_SCALE`. -/
def ELO_SCALE : ℝ := 400

/-- Module-level parameter `DELTA_BOUND`. -/
def DELTA_BOUND : ℝ := 100

/-- `UserSkillRating` (the `user_id`/`skill_id`/timestamp bookkeeping fields
are dropped; the rating map below is keyed by skill id). -/
structure UserSkillRating where
  rating : ℝ
  num_updates : ℕ

/-- `QuestionSkill`: one `(skill_id, weight)` loading row. -/
structure QuestionSkill where
  skill_id : ℤ
  weight : ℝ

/-- `Question` (the `id` field is dropped). -/
structure Question where
  difficulty_elo_base : ℝ
  skills : List QuestionSkill

/-- `QuestionRating` (the `question_id`/timestamp fields are dropped). -/
structure QuestionRating where
  rating_delta : ℝ
  num_updates : ℕ

/-- `expected_score` from `elo_system.py`:
`1 / (1 + 10 ** ((question_difficulty - user_rating) / 400))`. -/
noncomputable def expected_score (user_rating question_difficulty : ℝ) : ℝ :=
  1 / (1 + (10 : ℝ) ^ ((question_difficulty - user_rating) / ELO_SCALE))

/-- `adaptive_k` from `elo_system.py`: `base_k / sqrt(num_updates + 1)`. -/
noncomputable def adaptive_k (base_k : ℝ) (num_updates : ℕ) : ℝ :=
  base_k / Real.sqrt ((num_updates : ℝ) + 1)

/-- `clamp` from `elo_system.py`. -/
def clamp (value low high : ℝ) : ℝ := max low (min high value)

/-- `get_question_effective_difficulty` from `elo_system.py`. -/
def get_question_effective_difficulty (question : Question)
    (question_rating : Option QuestionRating) : ℝ :=
  question.difficulty_elo_base +
    (match question_rating with
     | some qr => qr.rating_delta
     | none => 0)

/-- One entry of the `skill_updates` debug list built by `update_elo`. -/
structure SkillUpdate where
  skill_id : ℤ
  old : ℝ
  new : ℝ
  weight : ℝ
  k_factor : ℝ
  update_amount : ℝ

/-- Result record of `update_elo`: the mutated user-rating map and question
rating, plus the debug dictionary (fields that are only set on the non-empty
path are `Option`-valued, mirroring key presence in the Python dict). -/
structure EloResult where
  ratings : ℤ → UserSkillRating
  question_rating : Option QuestionRating
  actual : ℕ
  skill_updates : List SkillUpdate
  user_effective_rating : Option ℝ
  expected_prob : Option ℝ
  delta : Option ℝ

/-- The per-skill mutation loop of `update_elo` (step 6): walks the
question's skill rows in order, updating the rating map in place and
appending to `skill_updates`. -/
noncomputable def eloFold (delta : ℝ) :
    List QuestionSkill → (ℤ → UserSkillRating) → List SkillUpdate →
      (ℤ → UserSkillRating) × List SkillUpdate
  | [], m, acc => (m, acc)
  | qs :: rest, m, acc =>
    let usr := m qs.skill_id
    let K := adaptive_k BASE_K_USER usr.num_updates
    let update_amount := K * qs.weight * delta
    let newRating : UserSkillRating := ⟨usr.rating + update_amount, usr.num_updates + 1⟩
    eloFold delta rest (Function.update m qs.skill_id newRating)
      (acc ++ [⟨qs.skill_id, usr.rating, newRating.rating, qs.weight, K, update_amount⟩])

/-- `update_elo` from `elo_system.py`.  The Python dict of
`UserSkillRating` objects is modelled as a total map `ℤ → UserSkillRating`
(the code assumes every touched skill id is present). -/
noncomputable def update_elo (user_ratings : ℤ → UserSkillRating)
    (question : Question) (question_rating : Option QuestionRating)
    (is_correct : Bool) (update_question : Bool) : EloResult :=
  let score : ℝ := if is_correct then 1 else 0
  match question.skills with
  | [] =>
    ⟨user_ratings, question_rating, if is_correct then 1 else 0, [], none, none, none⟩
  | _ :: _ =>
    let R_u_eff :=
      (question.skills.map (fun qs => qs.weight * (user_ratings qs.skill_id).rating)).sum
    let D_q := get_question_effective_difficulty question question_rating
    let P := expected_score R_u_eff D_q
    let delta := score - P
    let folded := eloFold delta question.skills user_ratings []
    let qr' :=
      if update_question then
        let qr0 := question_rating.getD ⟨0, 0⟩
        let K_q := adaptive_k BASE_K_QUESTION qr0.num_updates
        some (⟨clamp (qr0.rating_delta - K_q * delta) (-DELTA_BOUND) DELTA_BOUND,
          qr0.num_updates + 1⟩ : QuestionRating)
      else question_rating
    ⟨folded.1, qr', if is_correct then 1 else 0, folded.2, some R_u_eff, some P, some delta⟩

/-- The worked example's user ratings: Flaw (skill 1) at 1500 with 10 prior
updates, Assumption (skill 2) at 1450 with 5 prior updates. -/
noncomputable def workedRatings : ℤ → UserSkillRating := fun s =>
  if s = 1 then ⟨1500, 10⟩ else if s = 2 then ⟨1450, 5⟩ else ⟨1500, 0⟩

/-- The worked example's question: base difficulty 1520, skill weights
Flaw 0.6 / Assumption 0.4. -/
noncomputable def workedQuestion : Question :=
  ⟨1520, [⟨1, 0.6⟩, ⟨2, 0.4⟩]⟩

/-- The worked example's `update_elo` call (correct answer, fresh question
rating, question update enabled, as in the source's `__main__` example). -/
noncomputable def workedResult : EloResult :=
  update_elo workedRatings workedQuestion (some ⟨0, 0⟩) true true

/-! ## Online Rasch ability update (`insights/irt_implementation.py`,
`rasch_online_update_theta_torch`) -/

/-- `torch.sigmoid`. -/
noncomputable def sigmoid (x : ℝ) : ℝ := 1 / (1 + Real.exp (-x))

/-- One 1-D Newton iteration of `rasch_online_update_theta_torch`; `data` is
the list of `(response, difficulty)` pairs (the two equal-length tensors,
zipped). -/
noncomputable def newtonStep (data : List (ℝ × ℝ)) (pm inv_var θ : ℝ) : ℝ :=
  let g := (data.map (fun p => p.1 - sigmoid (θ - p.2))).sum - (θ - pm) * inv_var
  let H := -(data.map (fun p => sigmoid (θ - p.2) * (1 - sigmoid (θ - p.2)))).sum - inv_var
  if H = 0 then θ else θ - g / H

/-- `rasch_online_update_theta_torch` from `irt_implementation.py` (the
`iters` default in the source is 6). -/
noncomputable def rasch_online_update_theta_torch (data : List (ℝ × ℝ))
    (theta0 prior_mean prior_var : ℝ) (iters : ℕ) : ℝ :=
  let inv_var : ℝ := if 0 < prior_var then 1 / prior_var else 1 / 10 ^ 12
  (newtonStep data prior_mean inv_var)^[iters] theta0

/-! ## Bayesian linear bandit (`personalization/bandit.py`)

NumPy float matrices are modelled over `ℚ`; `np.linalg.inv` is modelled by
the exact inverse `matInv` below (which agrees with Mathlib's `Matrix.inv`
everywhere, see `matInv_eq_inv`). -/

/-- Exact matrix inverse over `ℚ` (adjugate formula), modelling
`np.linalg.inv`. -/
def matInv {n : ℕ} (A : Matrix (Fin n) (Fin n) ℚ) : Matrix (Fin n) (Fin n) ℚ :=
  A.det⁻¹ • A.adjugate

/-- State of `BayesianLinearBandit`: posterior mean `mu`, covariance `Sigma`,
noise variance `sigma_sq`, cached precision `Sigma_inv`, and `num_updates`. -/
structure BayesianLinearBandit (d : ℕ) where
  mu : Fin d → ℚ
  Sigma : Matrix (Fin d) (Fin d) ℚ
  sigma_sq : ℚ
  Sigma_inv : Matrix (Fin d) (Fin d) ℚ
  num_updates : ℕ

/-- `BayesianLinearBandit.__init__` with explicit prior (the constructor
computes `Sigma_inv = inv(Sigma)` and starts `num_updates` at 0). -/
def BayesianLinearBandit.init (d : ℕ) (prior_mean : Fin d → ℚ)
    (prior_cov : Matrix (Fin d) (Fin d) ℚ) (noise_variance : ℚ) :
    BayesianLinearBandit d :=
  ⟨prior_mean, prior_cov, noise_variance, matInv prior_cov, 0⟩

/-- `Phi.T @ Phi` for the stacked feature matrix `Phi` whose rows are
`features_list`. -/
def phiTphi {d : ℕ} (features_list : List (Fin d → ℚ)) :
    Matrix (Fin d) (Fin d) ℚ :=
  (features_list.map (fun φ => Matrix.vecMulVec φ φ)).sum

/-- `Phi.T @ r` for the stacked features and the reward vector. -/
def phiTr {d : ℕ} (features_list : List (Fin d → ℚ)) (rewards_list : List ℚ) :
    Fin d → ℚ :=
  ((features_list.zip rewards_list).map (fun p => p.2 • p.1)).sum

/-- `BayesianLinearBandit.update`.  Note the faithful modelling of the
source's in-place mutation: `self.Sigma_inv` is overwritten with the *new*
precision on line 113 before being read again in the mean update on
line 121, so the mean is `Σ_new (Σ⁻¹_new μ_old + σ⁻² Φᵀr)`, not the
documented `Σ_new (Σ⁻¹_old μ_old + σ⁻² Φᵀr)`. -/
def BayesianLinearBandit.update {d : ℕ} (b : BayesianLinearBandit d)
    (features_list : List (Fin d → ℚ)) (rewards_list : List ℚ) :
    BayesianLinearBandit d :=
  match features_list with
  | [] => b
  | _ :: _ =>
    let Sigma_inv := b.Sigma_inv + (1 / b.sigma_sq) • phiTphi features_list
    let Sigma := matInv Sigma_inv
    let mu := Sigma.mulVec
      (Sigma_inv.mulVec b.mu + (1 / b.sigma_sq) • phiTr features_list rewards_list)
    ⟨mu, Sigma, b.sigma_sq, Sigma_inv, b.num_updates + rewards_list.length⟩

/-- The posterior mean prescribed by the spec and by the source's own
docstring/comment for `update`: `Σ_new (Σ⁻¹_old μ_old + σ⁻² Φᵀr)` with the
*old* precision.  Stated from the spec's words for comparison with
`BayesianLinearBandit.update`. -/
def specPosteriorMean {d : ℕ} (b : BayesianLinearBandit d)
    (features_list : List (Fin d → ℚ)) (rewards_list : List ℚ) : Fin d → ℚ :=
  (matInv (b.Sigma_inv + (1 / b.sigma_sq) • phiTphi features_list)).mulVec
    (b.Sigma_inv.mulVec b.mu + (1 / b.sigma_sq) • phiTr features_list rewards_list)

/-- The dictionary produced by `BayesianLinearBandit.to_dict`
(`mu.tolist()` / `Sigma.tolist()`; the JSON layer `to_json`/`from_json` is
`json.dumps`/`json.loads` of exactly this dictionary). -/
structure BanditDict where
  dimension : ℕ
  mu : List ℚ
  Sigma : List (List ℚ)
  sigma_sq : ℚ
  num_updates : ℕ

/-- `BayesianLinearBandit.to_dict`. -/
def BayesianLinearBandit.to_dict {d : ℕ} (b : BayesianLinearBandit d) :
    BanditDict :=
  ⟨d, List.ofFn b.mu, List.ofFn (fun i => List.ofFn (fun j => b.Sigma i j)),
    b.sigma_sq, b.num_updates⟩

/-- `BayesianLinearBandit.from_dict`: calls the constructor with
`prior_mean = np.array(data['mu'])`, `prior_cov = np.array(data['Sigma'])`,
`noise_variance = data['sigma_sq']`, then restores `num_updates`. -/
def BayesianLinearBandit.from_dict (data : BanditDict) :
    BayesianLinearBandit data.dimension :=
  let mu : Fin data.dimension → ℚ := fun i => data.mu.getD i 0
  let Sigma : Matrix (Fin data.dimension) (Fin data.dimension) ℚ :=
    Matrix.of fun i j => (data.Sigma.getD i []).getD j 0
  ⟨mu, Sigma, data.sigma_sq, matInv Sigma, data.num_updates⟩

/-- Quadratic form `xᵀ M x` (used to state positive definiteness of the
bandit covariance). -/
def qform {n : ℕ} (M : Matrix (Fin n) (Fin n) ℚ) (x : Fin n → ℚ) : ℚ :=
  Matrix.dotProduct x (M.mulVec x)

/-- Positive definiteness of a rational matrix: symmetric with positive
quadratic form away from zero. -/
def PosDefQ {n : ℕ} (M : Matrix (Fin n) (Fin n) ℚ) : Prop :=
  M.IsSymm ∧ ∀ x : Fin n → ℚ, x ≠ 0 → 0 < qform M x

/-! ## Feature engineering and weekly module selection
(`adaptive_helpers.py` `construct_features`, `check_prerequisites`;
`adaptive_planner.py` `select_modules_for_week`) -/

/-- A module-library record (only the fields read by feature construction
and weekly selection; `tasks`, names, etc. are dropped). -/
structure Module where
  module_id : String
  target_skills : List String
  secondary_skills : List String
  phase_suitability : List String
  prerequisites : List String
  difficulty_level : String
  estimated_minutes : ℤ

/-- `check_prerequisites` from `adaptive_helpers.py`. -/
def check_prerequisites (module : Module) (completed_modules : List String) :
    Bool :=
  module.prerequisites.all (fun prereq => completed_modules.contains prereq)

/-- The mastery-vector index for the `i`-th target skill of a module, as
`skill_id_to_index(target_skills[i])`.  The `getD`/`toNat` defaults are
exercised only where the Python code would raise
(`ValueError`/`IndexError`). -/
def targetSkillIdx (module : Module) (i : ℕ) : ℕ :=
  ((skill_id_to_index (module.target_skills.getD i "")).getD 0).toNat

/-- `construct_features` from `adaptive_helpers.py`: mastery block, 5
mastery gaps, difficulty one-hot, phase match, normalized week, up to 5
pairwise interaction terms, zero-padded and truncated to 100 entries. -/
def construct_features (module : Module) (mastery_vector : List ℚ)
    (phase : String) (week_number : ℤ) : List ℚ :=
  let gaps := (List.range 5).map (fun i =>
    if i < module.target_skills.length then
      1 - mastery_vector.getD (targetSkillIdx module i) 0
    else 0)
  let diff_idx : ℕ :=
    if module.difficulty_level = "foundation" then 0
    else if module.difficulty_level = "intermediate" then 1
    else if module.difficulty_level = "advanced" then 2
    else 0
  let diff_onehot := (List.range 3).map (fun k => if k = diff_idx then (1 : ℚ) else 0)
  let phase_match : ℚ := if module.phase_suitability.contains phase then 1 else 0
  let t := min 3 module.target_skills.length
  let interactions :=
    ((List.range t).flatMap (fun i => ((List.range t).drop (i + 1)).map (fun j => (i, j)))).map
      (fun p =>
        mastery_vector.getD (targetSkillIdx module p.1) 0 *
          mastery_vector.getD (targetSkillIdx module p.2) 0)
  let features :=
    mastery_vector ++ gaps ++ diff_onehot ++ [phase_match, (week_number : ℚ) / 10] ++
      (interactions ++ List.replicate (5 - interactions.length) 0)
  (features ++ List.replicate (100 - features.length) 0).take 100

/-- `np.dot` on equal-length lists (zip truncation is never exercised:
both vectors have length 100). -/
def dotQ (theta φ : List ℚ) : ℚ :=
  ((theta.zip φ).map (fun p => p.1 * p.2)).sum

/-- Stable descending insertion by score: the result coincides with
Python's stable `list.sort(key=score, reverse=True)`. -/
def insertDesc (x : Module × ℚ) : List (Module × ℚ) → List (Module × ℚ)
  | [] => [x]
  | y :: ys => if x.2 < y.2 then y :: insertDesc x ys else x :: y :: ys

/-- Stable descending sort by score (insertion sort; agrees with any stable
sort, hence with CPython's). -/
def sortDesc : List (Module × ℚ) → List (Module × ℚ)
  | [] => []
  | x :: xs => insertDesc x (sortDesc xs)

/-- `len(module_skills & covered_skills)` where
`module_skills = set(module['target_skills'])`. -/
def overlapCount (module : Module) (covered_skills : List String) : ℕ :=
  ((module.target_skills.dedup).filter (fun s => covered_skills.contains s)).length

/-- The greedy constrained selection loop of `select_modules_for_week`
(state: selected modules, total time, covered skills). -/
def greedyGo (time_budget : ℤ) :
    List (Module × ℚ) → List Module → ℤ → List String →
      List Module × ℤ × List String
  | [], selected, total_time, covered => (selected, total_time, covered)
  | (m, _) :: rest, selected, total_time, covered =>
    if time_budget < total_time + m.estimated_minutes then
      greedyGo time_budget rest selected total_time covered
    else if (7 : ℚ) / 10 * (m.target_skills.dedup.length : ℚ) <
        (overlapCount m covered : ℚ) ∧ 2 ≤ selected.length then
      greedyGo time_budget rest selected total_time covered
    else
      let selected' := selected ++ [m]
      let total_time' := total_time + m.estimated_minutes
      let covered' := covered ++ m.target_skills
      if 5 ≤ selected'.length then (selected', total_time', covered')
      else greedyGo time_budget rest selected' total_time' covered'

/-- The candidate filter of `select_modules_for_week`: phase-suitable, not
yet completed, prerequisites satisfied. -/
def candidatesFor (phase : String) (module_library : List Module)
    (completed_modules : List String) : List Module :=
  module_library.filter (fun m =>
    m.phase_suitability.contains phase &&
      !(completed_modules.contains m.module_id) &&
      check_prerequisites m completed_modules)

/-- The scored, descending-sorted candidate list of
`select_modules_for_week`. -/
def scoredCandidates (week_number : ℤ) (phase : String)
    (mastery_vector theta_sample : List ℚ) (candidates : List Module) :
    List (Module × ℚ) :=
  sortDesc (candidates.map (fun m =>
    (m, dotQ theta_sample (construct_features m mastery_vector phase week_number))))

/-- `select_modules_for_week` from `adaptive_planner.py`.  `theta_sample`
models the Thompson draw `bandit_model.sample_parameters()` (randomness
passed in); `diagnostic` models the result of
`get_diagnostic_module(phase, covered)`, which reads the on-disk module
library (a data file outside the sources). -/
def selectMain (week_number : ℤ) (phase : String)
    (mastery_vector theta_sample : List ℚ) (time_budget : ℤ)
    (diagnostic : Option Module) (candidates : List Module) : List Module :=
  let sorted := scoredCandidates week_number phase mastery_vector theta_sample candidates
  let g := greedyGo time_budget sorted [] 0 []
  let selected :=
    if g.1.length < 2 ∧ 2 ≤ candidates.length then (sorted.take 2).map Prod.fst
    else g.1
  if week_number % 3 = 0 then
    match diagnostic with
    | some dm => selected ++ [dm]
    | none => selected
  else selected

/-- Dispatch of `select_modules_for_week`: empty candidate list returns `[]`
before any scoring (and before the diagnostic insertion); otherwise the
scored greedy selection of `selectMain` runs. -/
def select_modules_for_week (week_number : ℤ) (phase : String)
    (mastery_vector : List ℚ) (theta_sample : List ℚ)
    (module_library : List Module) (completed_modules : List String)
    (time_budget : ℤ) (diagnostic : Option Module) : List Module :=
  match candidatesFor phase module_library completed_modules with
  | [] => []
  | c :: cs =>
    selectMain week_number phase mastery_vector theta_sample time_budget
      diagnostic (c :: cs)

/-- The two oversized modules of the budget counterexample (400 minutes
each, `foundation`-suitable, no prerequisites). -/
def moduleA : Module :=
  ⟨"MOD-A", [], [], ["foundation"], [], "foundation", 400⟩

/-- Second module of the budget counterexample. -/
def moduleB : Module :=
  ⟨"MOD-B", [], [], ["foundation"], [], "foundation", 400⟩

/-- Total `estimated_minutes` of a selected module list. -/
def totalMinutes (modules : List Module) : ℤ :=
  (modules.map (fun m => m.estimated_minutes)).sum

/-! ## Theorems -/

theorem ofFn_getD {n : ℕ} {α : Type} (f : Fin n → α) (i : Fin n) (d₀ : α) :
    (List.ofFn f).getD i d₀ = f i := by
  rw [List.getD_eq_getElem?_getD, List.getElem?_ofFn, List.ofFnNthVal,
    dif_pos i.isLt]
  simp

theorem npMean_replicate (n : ℕ) (q : ℚ) (h : (n : ℚ) ≠ 0) :
    npMean (List.replicate n q) = q := by
  rw [npMean, List.sum_replicate, List.length_replicate, nsmul_eq_mul,
    mul_comm, mul_div_assoc, div_self h, mul_one]

theorem npVar_replicate (n : ℕ) (q : ℚ) (h : (n : ℚ) ≠ 0) :
    npVar (List.replicate n q) = 0 := by
  rw [npVar, npMean_replicate n q h, List.map_replicate]
  simp

theorem allocLoop_stalls : ∀ f : ℕ, allocLoop 5 f (2, 3, 2) = none := by
  intro f
  induction f with
  | zero => decide
  | succ n ih =>
      rw [allocLoop]
      norm_num
      exact ih

/-- C3: `allocate_phases` does NOT terminate for every `total_weeks ≥ 1`: at
`total_weeks = 5` (uniform mastery 0.3) the base allocation is `(2, 3, 2)`
with sum `7 > 5`, and the fix-up loop's `N2 = max(3, N2 - 1)` never changes
the state, so the `while` loop runs forever — for every fuel the loop is
still running. -/
theorem allocate_phases_diverges :
    ∀ fuel : ℕ, allocate_phases fuel 5 (List.replicate 35 (3 / 10)) = none := by
  intro fuel
  have hbase : allocBase 5 = (2, 3, 2) := by decide
  have hadj : allocAdjust 5 (3 / 10) 0 (2, 3, 2) = (2, 3, 2) := by
    rw [allocAdjust]
    norm_num
  rw [allocate_phases, npMean_replicate 35 _ (by norm_num),
    npVar_replicate 35 _ (by norm_num), hbase, hadj]
  exact allocLoop_stalls fuel

/-- C9: the skill-index mapping is a bijection between the 35 planner skill
identifiers `LR-01…LR-18, RC-01…RC-17` and the indices `0…34`:
`skill_id_to_index` inverts `index_to_skill_id` on every index in `[0, 34]`,
and `index_to_skill_id` inverts `skill_id_to_index` on every listed
identifier. -/
theorem skill_index_bijection :
    (∀ i : Fin 35, (index_to_skill_id i.val).bind skill_id_to_index = some i.val) ∧
      plannerSkillIds.Forall
        (fun s => (skill_id_to_index s).bind index_to_skill_id = some s) := by
  exact ⟨by decide, by decide⟩

/-- C5 counterexample: the planner-side mastery reader
(`adaptive_helpers.get_mastery_vector`) does NOT return the all-zeros vector
for a learner with no stored mastery row — it returns the 0.3-filled
35-vector. -/
theorem mastery_default_not_zero :
    get_mastery_vector none = List.replicate 35 (3 / 10) ∧
      List.replicate 35 ((3 : ℚ) / 10) ≠ List.replicate 35 (0 : ℚ) := by
  refine ⟨rfl, fun h => ?_⟩
  have h0 := congrArg (fun l => l[0]?) h
  simp only [List.getElem?_replicate, Option.some.injEq,
    if_pos (by norm_num : (0 : ℕ) < 35)] at h0
  norm_num at h0

/-- C5 amended: with no stored mastery vector, the insights reader
(`logic.get_current_mastery_vector`) returns the all-zeros vector of length
equal to its skill-taxonomy size (34), while the planner-side reader
(`adaptive_helpers.get_mastery_vector`) returns the 35-vector filled with
0.3. -/
theorem mastery_defaults :
    get_current_mastery_vector none = List.replicate skill_taxonomy.length 0 ∧
      get_mastery_vector none = List.replicate 35 (3 / 10) ∧
      skill_taxonomy.length = 34 :=
  ⟨rfl, rfl, rfl⟩

/-- C10: on a question whose skill list is empty, `update_elo` returns
without touching any state: the rating map and the question rating are
returned unchanged and `skill_updates` is empty. -/
theorem update_elo_empty_skills_noop (user_ratings : ℤ → UserSkillRating)
    (question : Question) (question_rating : Option QuestionRating)
    (is_correct update_question : Bool) (h : question.skills = []) :
    (update_elo user_ratings question question_rating is_correct
        update_question).ratings = user_ratings ∧
      (update_elo user_ratings question question_rating is_correct
        update_question).question_rating = question_rating ∧
      (update_elo user_ratings question question_rating is_correct
        update_question).skill_updates = [] := by
  unfold update_elo
  rw [h]
  exact ⟨rfl, rfl, rfl⟩

/-- Witness for C10 at a concrete empty-skill question. -/
theorem update_elo_empty_skills_noop_witness :
    (Question.mk 1520 []).skills = [] ∧
      ((update_elo (fun _ => ⟨1500, 0⟩) (Question.mk 1520 []) none true
          true).ratings = (fun _ => (⟨1500, 0⟩ : UserSkillRating)) ∧
        (update_elo (fun _ => ⟨1500, 0⟩) (Question.mk 1520 []) none true
          true).question_rating = none ∧
        (update_elo (fun _ => ⟨1500, 0⟩) (Question.mk 1520 []) none true
          true).skill_updates = []) :=
  ⟨rfl, update_elo_empty_skills_noop _ _ _ _ _ rfl⟩

/-- C8: serializing a bandit to its dictionary and deserializing restores the
dimension, `μ`, `Σ`, `σ²`, and the update count exactly, for every bandit
state. -/
theorem bandit_serialization_roundtrip (d : ℕ) (b : BayesianLinearBandit d) :
    (BayesianLinearBandit.from_dict b.to_dict).mu = b.mu ∧
      (BayesianLinearBandit.from_dict b.to_dict).Sigma = b.Sigma ∧
      (BayesianLinearBandit.from_dict b.to_dict).sigma_sq = b.sigma_sq ∧
      (BayesianLinearBandit.from_dict b.to_dict).num_updates = b.num_updates ∧
      b.to_dict.dimension = d := by
  refine ⟨?_, ?_, rfl, rfl, rfl⟩
  · funext i
    exact ofFn_getD b.mu i 0
  · funext i j
    show ((List.ofFn fun i => List.ofFn fun j => b.Sigma i j).getD i []).getD j 0 =
      b.Sigma i j
    rw [ofFn_getD (fun i => List.ofFn fun j => b.Sigma i j) i []]
    exact ofFn_getD (fun j => b.Sigma i j) j 0

theorem qform_add {n : ℕ} (P M : Matrix (Fin n) (Fin n) ℚ) (x : Fin n → ℚ) :
    qform (P + M) x = qform P x + qform M x := by
  rw [qform, qform, qform, Matrix.add_mulVec, Matrix.dotProduct_add]

theorem qform_nonneg_of_posDefQ {n : ℕ} {P : Matrix (Fin n) (Fin n) ℚ}
    (h : PosDefQ P) (x : Fin n → ℚ) : 0 ≤ qform P x := by
  by_cases hx : x = 0
  · rw [hx, qform, Matrix.mulVec_zero, Matrix.dotProduct_zero]
  · exact (h.2 x hx).le

theorem posDefQ_det_ne_zero {n : ℕ} {A : Matrix (Fin n) (Fin n) ℚ}
    (h : PosDefQ A) : A.det ≠ 0 := by
  intro hdet
  obtain ⟨v, hv0, hv⟩ := Matrix.exists_mulVec_eq_zero_iff.2 hdet
  have hq := h.2 v hv0
  rw [qform, hv, Matrix.dotProduct_zero] at hq
  exact lt_irrefl 0 hq

theorem matInv_eq_inv {n : ℕ} (A : Matrix (Fin n) (Fin n) ℚ) :
    matInv A = A⁻¹ := by
  rw [matInv, Matrix.inv_def, Ring.inverse_eq_inv]

theorem matInv_mulVec_cancel {n : ℕ} {A : Matrix (Fin n) (Fin n) ℚ}
    (h : A.det ≠ 0) (y : Fin n → ℚ) :
    A.mulVec ((matInv A).mulVec y) = y := by
  rw [matInv_eq_inv, Matrix.mulVec_mulVec,
    Matrix.mul_nonsing_inv _ (isUnit_iff_ne_zero.2 h), Matrix.one_mulVec]

theorem posDefQ_matInv {n : ℕ} {A : Matrix (Fin n) (Fin n) ℚ}
    (h : PosDefQ A) : PosDefQ (matInv A) := by
  have hdet := posDefQ_det_ne_zero h
  constructor
  · show Matrix.transpose (matInv A) = matInv A
    rw [matInv_eq_inv, Matrix.transpose_nonsing_inv,
      show Matrix.transpose A = A from h.1]
  · intro x hx
    have hy : A.mulVec ((matInv A).mulVec x) = x := matInv_mulVec_cancel hdet x
    set y := (matInv A).mulVec x with hyd
    have hy0 : y ≠ 0 := by
      intro h0
      rw [h0, Matrix.mulVec_zero] at hy
      exact hx hy.symm
    rw [qform, ← hyd, ← hy, Matrix.dotProduct_comm]
    exact h.2 y hy0

theorem inv_diag_le {n : ℕ} (P M : Matrix (Fin n) (Fin n) ℚ) (hP : PosDefQ P)
    (hMs : M.IsSymm) (hM : ∀ x, 0 ≤ qform M x) (i : Fin n) :
    matInv (P + M) i i ≤ matInv P i i := by
  have hA : PosDefQ (P + M) := by
    refine ⟨Matrix.IsSymm.add hP.1 hMs, fun x hx => ?_⟩
    rw [qform_add]
    linarith [hP.2 x hx, hM x]
  have hPdet := posDefQ_det_ne_zero hP
  have hAdet := posDefQ_det_ne_zero hA
  set e : Fin n → ℚ := Pi.single i 1 with hed
  set z := (matInv (P + M)).mulVec e with hzd
  set w := (matInv P).mulVec e with hwd
  have hAz : (P + M).mulVec z = e := matInv_mulVec_cancel hAdet e
  have hPw : P.mulVec w = e := matInv_mulVec_cancel hPdet e
  have hdiagA : matInv (P + M) i i = Matrix.dotProduct e z := by
    rw [hzd, hed, Matrix.mulVec_single, Matrix.single_dotProduct]
    simp
  have hdiagP : matInv P i i = Matrix.dotProduct e w := by
    rw [hwd, hed, Matrix.mulVec_single, Matrix.single_dotProduct]
    simp
  have hez : Matrix.dotProduct e z = qform (P + M) z := by
    rw [qform, hAz, Matrix.dotProduct_comm]
  have hew : Matrix.dotProduct e w = qform P w := by
    rw [qform, hPw, Matrix.dotProduct_comm]
  have hcross : Matrix.dotProduct z (P.mulVec w) = Matrix.dotProduct e z := by
    rw [hPw, Matrix.dotProduct_comm]
  have hcross' : Matrix.dotProduct w (P.mulVec z) = Matrix.dotProduct e z := by
    rw [Matrix.dotProduct_mulVec, ← Matrix.mulVec_transpose,
      show Matrix.transpose P = P from hP.1, hPw]
  have hsq : 0 ≤ qform P (z - w) := qform_nonneg_of_posDefQ hP (z - w)
  have hexp : qform P (z - w) =
      qform P z - Matrix.dotProduct z (P.mulVec w) -
        Matrix.dotProduct w (P.mulVec z) + qform P w := by
    rw [qform, qform, qform, Matrix.mulVec_sub, Matrix.sub_dotProduct,
      Matrix.dotProduct_sub, Matrix.dotProduct_sub]
    ring
  have hMz := hM z
  have hsplit : qform (P + M) z = qform P z + qform M z := qform_add P M z
  rw [hdiagA, hdiagP, hez, hew]
  rw [hexp, hcross, hcross', hez] at hsq
  linarith

theorem phiTphi_cons {d : ℕ} (φ : Fin d → ℚ) (fl : List (Fin d → ℚ)) :
    phiTphi (φ :: fl) = Matrix.vecMulVec φ φ + phiTphi fl := by
  simp [phiTphi]

theorem phiTphi_isSymm {d : ℕ} (fl : List (Fin d → ℚ)) :
    (phiTphi fl).IsSymm := by
  induction fl with
  | nil =>
      show Matrix.transpose (phiTphi []) = phiTphi []
      simp [phiTphi]
  | cons φ rest ih =>
      rw [phiTphi_cons]
      refine Matrix.IsSymm.add ?_ ih
      show Matrix.transpose (Matrix.vecMulVec φ φ) = Matrix.vecMulVec φ φ
      ext i j
      simp [Matrix.transpose_apply, Matrix.vecMulVec_apply, mul_comm]

theorem qform_vecMulVec {d : ℕ} (φ x : Fin d → ℚ) :
    qform (Matrix.vecMulVec φ φ) x =
      Matrix.dotProduct φ x * Matrix.dotProduct φ x := by
  have hmv : (Matrix.vecMulVec φ φ).mulVec x =
      fun i => φ i * Matrix.dotProduct φ x := by
    funext i
    simp [Matrix.mulVec, Matrix.vecMulVec_apply, Matrix.dotProduct,
      Finset.mul_sum, mul_assoc]
  rw [qform, hmv]
  have hx : (Matrix.dotProduct x fun i => φ i * Matrix.dotProduct φ x) =
      Matrix.dotProduct x φ * Matrix.dotProduct φ x := by
    simp [Matrix.dotProduct, Finset.sum_mul, mul_assoc]
  rw [hx, Matrix.dotProduct_comm x φ]

theorem qform_phiTphi_nonneg {d : ℕ} (fl : List (Fin d → ℚ)) (x : Fin d → ℚ) :
    0 ≤ qform (phiTphi fl) x := by
  induction fl with
  | nil => simp [phiTphi, qform]
  | cons φ rest ih =>
      rw [phiTphi_cons, qform_add, qform_vecMulVec]
      nlinarith [mul_self_nonneg (Matrix.dotProduct φ x)]

theorem qform_smul {d : ℕ} (c : ℚ) (M : Matrix (Fin d) (Fin d) ℚ)
    (x : Fin d → ℚ) : qform (c • M) x = c * qform M x := by
  rw [qform, qform, Matrix.smul_mulVec_assoc, Matrix.dotProduct_smul,
    smul_eq_mul]

/-- C6: for every bandit state whose covariance `Σ` is positive definite
(with the cached precision consistent, `Σ_inv = Σ⁻¹`) and positive noise
variance, a batch update with a non-empty feature list (in particular one
containing a nonzero feature vector) never increases any diagonal entry of
the posterior covariance. -/
theorem bandit_covariance_diag_nonincreasing {d : ℕ}
    (b : BayesianLinearBandit d) (hPD : PosDefQ b.Sigma)
    (hinv : b.Sigma_inv = matInv b.Sigma) (hσ : 0 < b.sigma_sq)
    (features_list : List (Fin d → ℚ)) (rewards_list : List ℚ)
    (hne : features_list ≠ []) (hnz : ∃ φ ∈ features_list, φ ≠ 0) :
    ∀ i, (b.update features_list rewards_list).Sigma i i ≤ b.Sigma i i := by
  obtain ⟨φ0, fl', rfl⟩ : ∃ φ0 fl', features_list = φ0 :: fl' := by
    cases features_list with
    | nil => exact absurd rfl hne
    | cons a l => exact ⟨a, l, rfl⟩
  intro i
  have hSig : (b.update (φ0 :: fl') rewards_list).Sigma =
      matInv (b.Sigma_inv + (1 / b.sigma_sq) • phiTphi (φ0 :: fl')) := rfl
  rw [hSig, hinv]
  have hP : PosDefQ (matInv b.Sigma) := posDefQ_matInv hPD
  have hMs : ((1 / b.sigma_sq) • phiTphi (φ0 :: fl')).IsSymm :=
    Matrix.IsSymm.smul (phiTphi_isSymm _) _
  have hM : ∀ x, 0 ≤ qform ((1 / b.sigma_sq) • phiTphi (φ0 :: fl')) x := by
    intro x
    rw [qform_smul]
    exact mul_nonneg (by positivity) (qform_phiTphi_nonneg _ x)
  have h := inv_diag_le (matInv b.Sigma) _ hP hMs hM i
  have hback : matInv (matInv b.Sigma) = b.Sigma := by
    rw [matInv_eq_inv, matInv_eq_inv,
      Matrix.nonsing_inv_nonsing_inv _
        (isUnit_iff_ne_zero.2 (posDefQ_det_ne_zero hPD))]
  rw [hback] at h
  exact h

theorem posDefQ_one : PosDefQ (1 : Matrix (Fin 1) (Fin 1) ℚ) := by
  refine ⟨Matrix.isSymm_one, fun x hx => ?_⟩
  rw [qform, Matrix.one_mulVec]
  have hx0 : x 0 ≠ 0 := by
    intro h0
    apply hx
    funext j
    have hj : j = 0 := Subsingleton.elim j 0
    rw [hj, h0]
    rfl
  have : Matrix.dotProduct x x = x 0 * x 0 := by
    rw [Matrix.dotProduct, Fin.sum_univ_one]
  rw [this]
  exact mul_self_pos.2 hx0

/-- Witness for C6 at the one-dimensional prior state `μ = (1)`, `Σ = I`,
`σ² = 1` with batch `Φ = ((1))`, `r = (0)`. -/
theorem bandit_covariance_diag_nonincreasing_witness :
    PosDefQ (1 : Matrix (Fin 1) (Fin 1) ℚ) ∧
      (1 : Matrix (Fin 1) (Fin 1) ℚ) = matInv 1 ∧
      (0 : ℚ) < 1 ∧
      ([fun _ => (1 : ℚ)] : List (Fin 1 → ℚ)) ≠ [] ∧
      (∃ φ ∈ ([fun _ => (1 : ℚ)] : List (Fin 1 → ℚ)), φ ≠ 0) ∧
      ∀ i, ((⟨fun _ => 1, 1, 1, 1, 0⟩ : BayesianLinearBandit 1).update
        [fun _ => 1] [0]).Sigma i i ≤ (1 : Matrix (Fin 1) (Fin 1) ℚ) i i := by
  have hinv1 : (1 : Matrix (Fin 1) (Fin 1) ℚ) = matInv 1 := by
    rw [matInv, Matrix.det_one, Matrix.adjugate_one]
    simp
  have hne : ([fun _ => (1 : ℚ)] : List (Fin 1 → ℚ)) ≠ [] := by
    intro h
    exact List.cons_ne_nil _ _ h
  have hnz : ∃ φ ∈ ([fun _ => (1 : ℚ)] : List (Fin 1 → ℚ)), φ ≠ 0 := by
    refine ⟨fun _ => 1, List.mem_singleton.2 rfl, fun h => ?_⟩
    have h0 := congrFun h 0
    norm_num at h0
  exact ⟨posDefQ_one, hinv1, by norm_num, hne, hnz,
    bandit_covariance_diag_nonincreasing
      (⟨fun _ => 1, 1, 1, 1, 0⟩ : BayesianLinearBandit 1) posDefQ_one hinv1
      (by norm_num) [fun _ => 1] [0] hne hnz⟩

theorem sigmoid_pos (x : ℝ) : 0 < sigmoid x := by
  have h := Real.exp_pos (-x)
  rw [sigmoid]
  positivity

theorem sigmoid_lt_one (x : ℝ) : sigmoid x < 1 := by
  rw [sigmoid]
  rw [div_lt_one (by positivity)]
  linarith [Real.exp_pos (-x)]

theorem newtonStep_ge (data : List (ℝ × ℝ)) (hr : ∀ p ∈ data, p.1 = 1)
    (pm iv : ℝ) (hiv : 0 < iv) (θ : ℝ) (hθ : pm ≤ θ) :
    pm ≤ newtonStep data pm iv θ := by
  rw [newtonStep]
  have hS1 : 0 ≤ (data.map (fun p => p.1 - sigmoid (θ - p.2))).sum := by
    apply List.sum_nonneg
    intro x hx
    obtain ⟨p, hp, rfl⟩ := List.mem_map.1 hx
    rw [hr p hp]
    linarith [sigmoid_lt_one (θ - p.2)]
  have hS2 : 0 ≤ (data.map
      (fun p => sigmoid (θ - p.2) * (1 - sigmoid (θ - p.2)))).sum := by
    apply List.sum_nonneg
    intro x hx
    obtain ⟨p, hp, rfl⟩ := List.mem_map.1 hx
    have h1 := sigmoid_pos (θ - p.2)
    have h2 := sigmoid_lt_one (θ - p.2)
    nlinarith
  set S1 := (data.map (fun p => p.1 - sigmoid (θ - p.2))).sum with hS1d
  set S2 := (data.map
    (fun p => sigmoid (θ - p.2) * (1 - sigmoid (θ - p.2)))).sum with hS2d
  have hH : -S2 - iv < 0 := by linarith
  rw [if_neg (by intro h; rw [h] at hH; exact lt_irrefl 0 hH)]
  rw [← sub_nonneg]
  have hdiv : (S1 - (θ - pm) * iv) / (-S2 - iv) ≤ θ - pm := by
    rw [div_le_iff_of_neg hH]
    nlinarith [mul_nonneg (sub_nonneg.2 hθ) hS2]
  linarith

/-- C7: for a batch of all-correct responses (every response value 1), any
item difficulties, positive prior variance, and prior mean equal to the
starting estimate `theta0` (as `logic.irt_online_update` wires it), the
online Newton update returns a θ that is ≥ `theta0`; hence a sequence of
such updates, each seeded at the previous output, is non-decreasing. -/
theorem rasch_online_theta_nondecreasing (data : List (ℝ × ℝ))
    (theta0 prior_var : ℝ) (iters : ℕ) (hvar : 0 < prior_var)
    (hall : ∀ p ∈ data, p.1 = 1) :
    theta0 ≤ rasch_online_update_theta_torch data theta0 theta0 prior_var iters := by
  rw [rasch_online_update_theta_torch]
  rw [if_pos hvar]
  have hiv : 0 < 1 / prior_var := by positivity
  induction iters with
  | zero => simp
  | succ n ih =>
      rw [Function.iterate_succ_apply']
      exact newtonStep_ge data hall theta0 (1 / prior_var) hiv _ ih

/-- Witness for C7: one correct response on an item of difficulty 0, starting
at `theta0 = 0` with prior variance 1 and the source's default 6 Newton
iterations. -/
theorem rasch_online_theta_nondecreasing_witness :
    (0 : ℝ) < 1 ∧
      (0 : ℝ) ≤ rasch_online_update_theta_torch [(1, 0)] 0 0 1 6 :=
  ⟨by norm_num,
    rasch_online_theta_nondecreasing [(1, 0)] 0 1 6 (by norm_num)
      (by intro p hp; rw [List.mem_singleton] at hp; rw [hp])⟩

/-- C1: at the concrete one-dimensional state `μ = (1)`, `Σ = Σ⁻¹ = I`,
`σ² = 1` with batch `Φ = ((1))`, `r = (0)`, the code's updated mean is `(1)`
(it multiplies `μ_old` by the *new* precision), while the spec's (and the
source docstring's) formula `Σ_new(Σ⁻¹_old μ_old + σ⁻² Φᵀr)` gives `(1/2)`. -/
theorem bandit_update_mean_uses_new_precision :
    ((⟨fun _ => 1, 1, 1, 1, 0⟩ : BayesianLinearBandit 1).update [fun _ => 1]
        [0]).mu 0 = 1 ∧
      specPosteriorMean (⟨fun _ => 1, 1, 1, 1, 0⟩ : BayesianLinearBandit 1)
        [fun _ => 1] [0] 0 = 1 / 2 := by
  constructor
  · simp [BayesianLinearBandit.update, phiTphi, phiTr, matInv,
      Matrix.det_fin_one, Matrix.adjugate_fin_one, Matrix.mulVec,
      Matrix.dotProduct, Fin.sum_univ_one, Matrix.vecMulVec_apply,
      Matrix.one_apply, Matrix.add_apply, Matrix.smul_apply]
    norm_num
  · rw [specPosteriorMean]
    simp [phiTphi, phiTr, matInv, Matrix.det_fin_one, Matrix.adjugate_fin_one,
      Matrix.mulVec, Matrix.dotProduct, Fin.sum_univ_one, Matrix.vecMulVec_apply,
      Matrix.one_apply, Matrix.add_apply, Matrix.smul_apply]
    norm_num


theorem rpow_tenth_bounds : (1.2589254 : ℝ) < (10 : ℝ) ^ ((1 : ℝ) / 10) ∧
    (10 : ℝ) ^ ((1 : ℝ) / 10) < 1.2589255 := by
  have ht0 : (0 : ℝ) < (10 : ℝ) ^ ((1 : ℝ) / 10) :=
    Real.rpow_pos_of_pos (by norm_num) _
  have ht10 : ((10 : ℝ) ^ ((1 : ℝ) / 10)) ^ (10 : ℕ) = 10 := by
    rw [← Real.rpow_natCast ((10 : ℝ) ^ ((1 : ℝ) / 10)) 10,
      ← Real.rpow_mul (by norm_num : (0 : ℝ) ≤ 10)]
    norm_num
  constructor
  · by_contra hcon
    push_neg at hcon
    have hle : ((10 : ℝ) ^ ((1 : ℝ) / 10)) ^ (10 : ℕ) ≤ (1.2589254 : ℝ) ^ (10 : ℕ) :=
      pow_le_pow_left₀ ht0.le hcon 10
    rw [ht10] at hle
    norm_num at hle
  · by_contra hcon
    push_neg at hcon
    have hle : (1.2589255 : ℝ) ^ (10 : ℕ) ≤ ((10 : ℝ) ^ ((1 : ℝ) / 10)) ^ (10 : ℕ) :=
      pow_le_pow_left₀ (by norm_num) hcon 10
    rw [ht10] at hle
    norm_num at hle

theorem sqrt11_bounds : (3.3166247 : ℝ) < Real.sqrt 11 ∧
    Real.sqrt 11 < 3.3166248 :=
  ⟨(Real.lt_sqrt (by norm_num)).2 (by norm_num),
    (Real.sqrt_lt' (by norm_num)).2 (by norm_num)⟩

theorem sqrt6_bounds : (2.4494897 : ℝ) < Real.sqrt 6 ∧
    Real.sqrt 6 < 2.4494898 :=
  ⟨(Real.lt_sqrt (by norm_num)).2 (by norm_num),
    (Real.sqrt_lt' (by norm_num)).2 (by norm_num)⟩

theorem expected_score_worked : expected_score 1480 1520 =
    1 / (1 + (10 : ℝ) ^ ((1 : ℝ) / 10)) := by
  rw [expected_score, ELO_SCALE]
  norm_num

theorem expected_score_worked_bounds :
    (0.4426883 : ℝ) < expected_score 1480 1520 ∧
      expected_score 1480 1520 < 0.4426884 := by
  rw [expected_score_worked]
  obtain ⟨h1, h2⟩ := rpow_tenth_bounds
  have hpos : (0 : ℝ) < 1 + (10 : ℝ) ^ ((1 : ℝ) / 10) := by linarith
  constructor
  · rw [lt_div_iff₀ hpos]
    nlinarith
  · rw [div_lt_iff₀ hpos]
    nlinarith

theorem K_flaw_bounds : (12.06045 : ℝ) < 40 / Real.sqrt 11 ∧
    (40 : ℝ) / Real.sqrt 11 < 12.06046 := by
  obtain ⟨h1, h2⟩ := sqrt11_bounds
  have hpos : (0 : ℝ) < Real.sqrt 11 := by linarith
  constructor
  · rw [lt_div_iff₀ hpos]
    nlinarith
  · rw [div_lt_iff₀ hpos]
    nlinarith

theorem K_assumption_bounds : (16.329931 : ℝ) < 40 / Real.sqrt 6 ∧
    (40 : ℝ) / Real.sqrt 6 < 16.329932 := by
  obtain ⟨h1, h2⟩ := sqrt6_bounds
  have hpos : (0 : ℝ) < Real.sqrt 6 := by linarith
  constructor
  · rw [lt_div_iff₀ hpos]
    nlinarith
  · rw [div_lt_iff₀ hpos]
    nlinarith

theorem workedResult_rating_flaw : (workedResult.ratings 1).rating =
    1500 + 40 / Real.sqrt 11 * 0.6 * (1 - expected_score 1480 1520) := by
  have h : adaptive_k 40 10 = 40 / Real.sqrt 11 := by
    rw [adaptive_k]
    norm_num
  rw [← h]
  simp [workedResult, update_elo, workedQuestion, workedRatings, eloFold,
    get_question_effective_difficulty, Function.update, BASE_K_USER]
  norm_num

theorem workedResult_rating_assumption : (workedResult.ratings 2).rating =
    1450 + 40 / Real.sqrt 6 * 0.4 * (1 - expected_score 1480 1520) := by
  have h : adaptive_k 40 5 = 40 / Real.sqrt 6 := by
    rw [adaptive_k]
    norm_num
  rw [← h]
  simp [workedResult, update_elo, workedQuestion, workedRatings, eloFold,
    get_question_effective_difficulty, Function.update, BASE_K_USER]
  norm_num

/-- C4 counterexample: at the fixed worked example the Assumption skill's
updated rating is ≈ 1453.64, not ≈ 1454.5 as the spec states — it is more
than 0.4 away from 1454.5. -/
theorem elo_worked_example_assumption_mismatch :
    (workedResult.ratings 2).rating =
      1450 + 40 / Real.sqrt 6 * 0.4 * (1 - expected_score 1480 1520) ∧
      2 / 5 ≤ |(workedResult.ratings 2).rating - 1454.5| := by
  refine ⟨workedResult_rating_assumption, ?_⟩
  rw [workedResult_rating_assumption]
  obtain ⟨hKl, hKu⟩ := K_assumption_bounds
  obtain ⟨hPl, hPu⟩ := expected_score_worked_bounds
  have hdl : (0.5573116 : ℝ) < 1 - expected_score 1480 1520 := by linarith
  have hdu : 1 - expected_score 1480 1520 < 0.5573117 := by linarith
  have hub : 1450 + 40 / Real.sqrt 6 * 0.4 * (1 - expected_score 1480 1520) <
      1453.65 := by
    nlinarith [mul_nonneg (by linarith : (0:ℝ) ≤ 16.329932 - 40 / Real.sqrt 6)
      (by linarith : (0:ℝ) ≤ 0.5573117 - (1 - expected_score 1480 1520))]
  rw [abs_sub_comm, abs_of_pos (by linarith)]
  linarith

/-- C4 amended: the worked example yields `R_eff = 1480.0` exactly,
`P ≈ 0.443` and `Δ ≈ 0.557` (within 0.001), K factors exactly `40/√11` and
`40/√6`, `Flaw' ≈ 1504.0` (within 0.05), and `Assumption' ≈ 1453.64`
(within 0.01) — not 1454.5. -/
theorem elo_worked_example_values :
    workedResult.user_effective_rating = some 1480 ∧
    workedResult.expected_prob = some (expected_score 1480 1520) ∧
    |expected_score 1480 1520 - 0.443| < 1 / 1000 ∧
    workedResult.delta = some (1 - expected_score 1480 1520) ∧
    |1 - expected_score 1480 1520 - 0.557| < 1 / 1000 ∧
    workedResult.skill_updates.map (fun u => u.k_factor) =
      [40 / Real.sqrt 11, 40 / Real.sqrt 6] ∧
    (workedResult.ratings 1).rating =
      1500 + 40 / Real.sqrt 11 * 0.6 * (1 - expected_score 1480 1520) ∧
    |(workedResult.ratings 1).rating - 1504| < 1 / 20 ∧
    (workedResult.ratings 2).rating =
      1450 + 40 / Real.sqrt 6 * 0.4 * (1 - expected_score 1480 1520) ∧
    |(workedResult.ratings 2).rating - 1453.64| < 1 / 100 := by
  obtain ⟨hPl, hPu⟩ := expected_score_worked_bounds
  obtain ⟨hK1l, hK1u⟩ := K_flaw_bounds
  obtain ⟨hK2l, hK2u⟩ := K_assumption_bounds
  have hdl : (0.5573116 : ℝ) < 1 - expected_score 1480 1520 := by linarith
  have hdu : 1 - expected_score 1480 1520 < 0.5573117 := by linarith
  refine ⟨?_, ?_, ?_, ?_, ?_, ?_, workedResult_rating_flaw, ?_,
    workedResult_rating_assumption, ?_⟩
  · simp [workedResult, update_elo, workedQuestion, workedRatings,
      get_question_effective_difficulty]
    norm_num
  · simp [workedResult, update_elo, workedQuestion, workedRatings,
      get_question_effective_difficulty]
    norm_num
  · rw [abs_lt]
    constructor <;> linarith
  · simp [workedResult, update_elo, workedQuestion, workedRatings,
      get_question_effective_difficulty]
    norm_num
  · rw [abs_lt]
    constructor <;> linarith
  · simp [workedResult, update_elo, workedQuestion, workedRatings, eloFold,
      get_question_effective_difficulty, Function.update, BASE_K_USER,
      adaptive_k]
    norm_num
  · rw [workedResult_rating_flaw, abs_lt]
    constructor
    · nlinarith [mul_nonneg (by linarith : (0:ℝ) ≤ 40 / Real.sqrt 11 - 12.06045)
        (by linarith : (0:ℝ) ≤ (1 - expected_score 1480 1520) - 0.5573116)]
    · nlinarith [mul_nonneg (by linarith : (0:ℝ) ≤ 12.06046 - 40 / Real.sqrt 11)
        (by linarith : (0:ℝ) ≤ 0.5573117 - (1 - expected_score 1480 1520))]
  · rw [workedResult_rating_assumption, abs_lt]
    constructor
    · nlinarith [mul_nonneg (by linarith : (0:ℝ) ≤ 40 / Real.sqrt 6 - 16.329931)
        (by linarith : (0:ℝ) ≤ (1 - expected_score 1480 1520) - 0.5573116)]
    · nlinarith [mul_nonneg (by linarith : (0:ℝ) ≤ 16.329932 - 40 / Real.sqrt 6)
        (by linarith : (0:ℝ) ≤ 0.5573117 - (1 - expected_score 1480 1520))]




theorem dotQ_zero_left (n : ℕ) (φ : List ℚ) :
    dotQ (List.replicate n 0) φ = 0 := by
  induction n generalizing φ with
  | zero => simp [dotQ]
  | succ k ih =>
      cases φ with
      | nil => simp [dotQ]
      | cons a as =>
          rw [List.replicate_succ]
          simp only [dotQ, List.zip_cons_cons, List.map_cons, List.sum_cons]
          rw [zero_mul, zero_add]
          exact ih as

theorem insertDesc_length (x : Module × ℚ) (l : List (Module × ℚ)) :
    (insertDesc x l).length = l.length + 1 := by
  induction l with
  | nil => rfl
  | cons y ys ih =>
      rw [insertDesc]
      by_cases h : x.2 < y.2
      · rw [if_pos h, List.length_cons, ih, List.length_cons]
      · rw [if_neg h, List.length_cons, List.length_cons]

theorem sortDesc_length (l : List (Module × ℚ)) :
    (sortDesc l).length = l.length := by
  induction l with
  | nil => rfl
  | cons x xs ih => rw [sortDesc, insertDesc_length, ih, List.length_cons]

theorem scoredCandidates_length (week_number : ℤ) (phase : String)
    (mastery_vector theta_sample : List ℚ) (candidates : List Module) :
    (scoredCandidates week_number phase mastery_vector theta_sample
      candidates).length = candidates.length := by
  rw [scoredCandidates, sortDesc_length, List.length_map]

theorem totalMinutes_append (l : List Module) (m : Module) :
    totalMinutes (l ++ [m]) = totalMinutes l + m.estimated_minutes := by
  rw [totalMinutes, List.map_append, List.sum_append]
  simp [totalMinutes]

theorem greedyGo_length_le (time_budget : ℤ) :
    ∀ (l : List (Module × ℚ)) (sel : List Module) (tt : ℤ)
      (cov : List String), sel.length ≤ 4 →
      (greedyGo time_budget l sel tt cov).1.length ≤ 5 := by
  intro l
  induction l with
  | nil => intro sel tt cov h; simpa [greedyGo] using by omega
  | cons p rest ih =>
      intro sel tt cov h
      obtain ⟨m, sc⟩ := p
      rw [greedyGo]
      by_cases h1 : time_budget < tt + m.estimated_minutes
      · rw [if_pos h1]; exact ih sel tt cov h
      · rw [if_neg h1]
        by_cases h2 : (7 : ℚ) / 10 * (m.target_skills.dedup.length : ℚ) <
            (overlapCount m cov : ℚ) ∧ 2 ≤ sel.length
        · rw [if_pos h2]; exact ih sel tt cov h
        · rw [if_neg h2]
          by_cases h3 : 5 ≤ (sel ++ [m]).length
          · rw [if_pos h3]
            simp only [List.length_append, List.length_singleton] at *
            omega
          · rw [if_neg h3]
            apply ih
            simp only [List.length_append, List.length_singleton] at *
            omega

theorem greedyGo_budget (time_budget : ℤ) :
    ∀ (l : List (Module × ℚ)) (sel : List Module) (tt : ℤ)
      (cov : List String), tt = totalMinutes sel →
      (sel ≠ [] → tt ≤ time_budget) →
      (greedyGo time_budget l sel tt cov).2.1 =
          totalMinutes (greedyGo time_budget l sel tt cov).1 ∧
        ((greedyGo time_budget l sel tt cov).1 ≠ [] →
          (greedyGo time_budget l sel tt cov).2.1 ≤ time_budget) := by
  intro l
  induction l with
  | nil => intro sel tt cov h1 h2; rw [greedyGo]; exact ⟨h1, h2⟩
  | cons p rest ih =>
      intro sel tt cov h1 h2
      obtain ⟨m, sc⟩ := p
      rw [greedyGo]
      by_cases hb : time_budget < tt + m.estimated_minutes
      · rw [if_pos hb]; exact ih sel tt cov h1 h2
      · rw [if_neg hb]
        by_cases hd : (7 : ℚ) / 10 * (m.target_skills.dedup.length : ℚ) <
            (overlapCount m cov : ℚ) ∧ 2 ≤ sel.length
        · rw [if_pos hd]; exact ih sel tt cov h1 h2
        · rw [if_neg hd]
          push_neg at hb
          have h1a : tt + m.estimated_minutes = totalMinutes (sel ++ [m]) := by
            rw [totalMinutes_append, h1]
          have h2a : sel ++ [m] ≠ [] → tt + m.estimated_minutes ≤ time_budget :=
            fun _ => hb
          by_cases h5 : 5 ≤ (sel ++ [m]).length
          · rw [if_pos h5]
            exact ⟨h1a, h2a⟩
          · rw [if_neg h5]
            exact ih (sel ++ [m]) (tt + m.estimated_minutes) _ h1a h2a

theorem selectMain_bounds (week_number : ℤ) (phase : String)
    (mastery_vector theta_sample : List ℚ) (time_budget : ℤ)
    (diagnostic : Option Module) (candidates : List Module)
    (hweek : week_number % 3 ≠ 0) :
    (selectMain week_number phase mastery_vector theta_sample time_budget
        diagnostic candidates).length ≤ 5 ∧
      (2 ≤ candidates.length →
        2 ≤ (selectMain week_number phase mastery_vector theta_sample
          time_budget diagnostic candidates).length) ∧
      (2 ≤ (greedyGo time_budget
            (scoredCandidates week_number phase mastery_vector theta_sample
              candidates) [] 0 []).1.length →
        totalMinutes (selectMain week_number phase mastery_vector theta_sample
          time_budget diagnostic candidates) ≤ time_budget) := by
  simp only [selectMain]
  rw [if_neg hweek]
  set sorted := scoredCandidates week_number phase mastery_vector theta_sample
    candidates with hsorted
  set g := greedyGo time_budget sorted [] 0 [] with hgd
  have hglen : g.1.length ≤ 5 :=
    greedyGo_length_le time_budget sorted [] 0 [] (by simp)
  have hbud := greedyGo_budget time_budget sorted [] 0 [] (by rfl)
    (fun hne => absurd rfl hne)
  have hsl : sorted.length = candidates.length := by
    rw [hsorted, scoredCandidates_length]
  by_cases hfall : g.1.length < 2 ∧ 2 ≤ candidates.length
  · rw [if_pos hfall]
    refine ⟨?_, ?_, ?_⟩
    · rw [List.length_map, List.length_take]
      omega
    · intro h2
      rw [List.length_map, List.length_take]
      omega
    · intro h2
      omega
  · rw [if_neg hfall]
    refine ⟨hglen, ?_, ?_⟩
    · intro h2
      rcases not_and_or.1 hfall with h | h
      · omega
      · exact absurd h2 h
    · intro h2
      have hne : g.1 ≠ [] := by
        intro h0
        rw [h0] at h2
        simp at h2
      rw [← hbud.1]
      exact hbud.2 hne

/-- C2 amended: for every week not divisible by 3 (no diagnostic append),
weekly selection returns at most 5 modules, returns at least 2 whenever at
least 2 eligible candidates exist, and respects the time budget whenever the
greedy phase itself already selected at least 2 modules; when the greedy
phase selects fewer than 2, the fallback returns the top 2 by score with the
time budget waived (see the counterexample), and on every 3rd week one
diagnostic module may additionally be appended. -/
theorem select_modules_bounds (week_number : ℤ) (phase : String)
    (mastery_vector theta_sample : List ℚ) (module_library : List Module)
    (completed_modules : List String) (time_budget : ℤ)
    (diagnostic : Option Module) (hweek : week_number % 3 ≠ 0) :
    (select_modules_for_week week_number phase mastery_vector theta_sample
        module_library completed_modules time_budget diagnostic).length ≤ 5 ∧
      (2 ≤ (candidatesFor phase module_library completed_modules).length →
        2 ≤ (select_modules_for_week week_number phase mastery_vector
          theta_sample module_library completed_modules time_budget
          diagnostic).length) ∧
      (2 ≤ (greedyGo time_budget
            (scoredCandidates week_number phase mastery_vector theta_sample
              (candidatesFor phase module_library completed_modules)) [] 0
            []).1.length →
        totalMinutes (select_modules_for_week week_number phase mastery_vector
          theta_sample module_library completed_modules time_budget
          diagnostic) ≤ time_budget) := by
  cases hc : candidatesFor phase module_library completed_modules with
  | nil =>
      have hsel : select_modules_for_week week_number phase mastery_vector
          theta_sample module_library completed_modules time_budget
          diagnostic = [] := by
        rw [select_modules_for_week, hc]
      rw [hsel]
      refine ⟨by simp, by simp, ?_⟩
      intro h2
      have he : scoredCandidates week_number phase mastery_vector
          theta_sample [] = [] := by
        rw [scoredCandidates]
        rfl
      rw [he, greedyGo] at h2
      simp at h2
  | cons c cs =>
      have hsel : select_modules_for_week week_number phase mastery_vector
          theta_sample module_library completed_modules time_budget
          diagnostic = selectMain week_number phase mastery_vector
          theta_sample time_budget diagnostic (c :: cs) := by
        rw [select_modules_for_week, hc]
      rw [hsel]
      exact selectMain_bounds week_number phase mastery_vector theta_sample
        time_budget diagnostic (c :: cs) hweek


/-- C2 counterexample: with two eligible 400-minute modules and the default
300-minute budget, the greedy phase selects nothing, so the ≥2-module
fallback returns both modules and the returned list's total estimated
minutes is 800 > 300 — weekly selection can exceed the time budget. -/
theorem select_modules_budget_violation :
    select_modules_for_week 1 "foundation" (List.replicate 35 0)
        (List.replicate 100 0) [moduleA, moduleB] [] 300 none =
      [moduleA, moduleB] ∧
      totalMinutes [moduleA, moduleB] = 800 ∧ (300 : ℤ) < 800 := by
  have hcand : candidatesFor "foundation" [moduleA, moduleB] [] =
      [moduleA, moduleB] := rfl
  have hs : scoredCandidates 1 "foundation" (List.replicate 35 0)
      (List.replicate 100 0) [moduleA, moduleB] =
      [(moduleA, 0), (moduleB, 0)] := by
    rw [scoredCandidates, List.map_cons, List.map_cons, List.map_nil,
      dotQ_zero_left, dotQ_zero_left]
    simp [sortDesc, insertDesc]
  have hg : greedyGo 300 [(moduleA, 0), (moduleB, 0)] [] 0 [] =
      ([], 0, []) := by
    rw [greedyGo, if_pos (by decide : (300 : ℤ) < 0 + moduleA.estimated_minutes),
      greedyGo, if_pos (by decide : (300 : ℤ) < 0 + moduleB.estimated_minutes),
      greedyGo]
  refine ⟨?_, by decide, by decide⟩
  rw [select_modules_for_week, hcand]
  show selectMain 1 "foundation" (List.replicate 35 0) (List.replicate 100 0)
    300 none [moduleA, moduleB] = [moduleA, moduleB]
  simp only [selectMain, hs, hg]
  norm_num

/-- Witness for C2's amended theorem at week 1 with an empty library. -/
theorem select_modules_bounds_witness :
    ((1 : ℤ) % 3 ≠ 0) ∧
      ((select_modules_for_week 1 "foundation" [] [] [] [] 300 none).length ≤ 5 ∧
        (2 ≤ (candidatesFor "foundation" [] []).length →
          2 ≤ (select_modules_for_week 1 "foundation" [] [] [] [] 300
            none).length) ∧
        (2 ≤ (greedyGo 300 (scoredCandidates 1 "foundation" [] []
              (candidatesFor "foundation" [] [])) [] 0 []).1.length →
          totalMinutes (select_modules_for_week 1 "foundation" [] [] [] [] 300
            none) ≤ 300)) :=
  ⟨by decide, select_modules_bounds 1 "foundation" [] [] [] [] 300 none
    (by decide)⟩


end Deductly
